import Mathlib

/-!
# virtual_machines: the fault-trapping probe and the pool allocator

A shallow embedding of `safe_read_uint8_t/main.cpp` and of the allocator of
`memory_pool/test.cpp`.

The C++ code is translated function by function into state-passing
definitions over a `Process` record.  The operating system the code talks
to (the signal disposition table, the signal mask of the thread, signal
delivery, `sigsetjmp`/`siglongjmp`) is not part of the repository; it is
modelled here after POSIX / Linux:

* `sigaction` swaps one entry of the disposition table and reports the old
  one; it fails with `-1` for an invalid signal number, for `SIGKILL` /
  `SIGSTOP` when a new action is given, and whenever the environment refuses
  the call (`Process.sigaction_refused`, for instance a system-call filter);
* while a handler runs, the delivered signal (unless `SA_NODEFER`) and the
  signals of the action's `sa_mask` are added to the blocked set; a normal
  return of the handler puts the old blocked set back;
* a synchronous memory fault whose signal is blocked, ignored or at its
  default disposition terminates the process; when its handler returns
  normally the faulting instruction is executed again;
* `sigsetjmp(env, savemask)` records the blocked set when `savemask` is not
  zero and `siglongjmp` puts it back.

Addresses and bytes are natural numbers.  The field `Process.trace` is ghost
state: the kernel model appends an event for every handler it calls and
for every `siglongjmp`, so that "invoked exactly once" can be stated.
-/

namespace VirtualMachines

namespace SafeRead

/-! ## Signals, signal sets and actions -/

/-- Signal number of the bus-error fault class (Linux). -/
def SIGBUS : Int := 7

/-- Signal number of `SIGKILL`. -/
def SIGKILL : Int := 9

/-- Signal number of the invalid-address fault class (Linux). -/
def SIGSEGV : Int := 11

/-- Signal number of `SIGSTOP`. -/
def SIGSTOP : Int := 19

/-- Flag bit `SA_NODEFER` of `sa_flags`. -/
def SA_NODEFER : Nat := 0x40000000

/-- Flag bit `SA_RESETHAND` of `sa_flags`. -/
def SA_RESETHAND : Nat := 0x80000000

/-- The type `sigset_t`: a finite set of signal numbers. -/
abbrev sigset_t := Finset Int

/-- Signal numbers the kernel accepts: `1 .. 64`. -/
def valid_signal (signum : Int) : Bool := decide (1 ≤ signum) && decide (signum ≤ 64)

/-- The library call `sigemptyset`: the set becomes empty. -/
def sigemptyset (_set : sigset_t) : sigset_t := ∅

/-- The library call `sigaddset`: adds a valid signal number, and leaves the
set alone for an invalid one. -/
def sigaddset (set : sigset_t) (signum : Int) : sigset_t :=
  if valid_signal signum then insert signum set else set

/-- The handler entry points that occur in the program, with the two special
dispositions of `<signal.h>`. -/
inductive Handler where
  | SIG_DFL
  | SIG_IGN
  | safe_handler
  | custom_handler
  deriving DecidableEq, Repr

/-- The fields of `struct sigaction` the program uses. -/
structure Sigaction where
  sa_handler : Handler
  sa_mask : sigset_t
  sa_flags : Nat
  deriving DecidableEq

/-- A value-initialised `struct sigaction` (written `{}` in the source):
every field zero, and the zero handler is `SIG_DFL`. -/
def Sigaction.zero : Sigaction :=
  { sa_handler := Handler.SIG_DFL, sa_mask := ∅, sa_flags := 0 }

/-- Whether a flag bit (a power of two) is set in `sa_flags`. -/
def has_flag (flags bit : Nat) : Bool := decide ((flags / bit) % 2 = 1)

/-! ## The process -/

/-- The two fault classes a one-byte load can raise. -/
inductive FaultClass where
  | segv
  | bus
  deriving DecidableEq, Repr

/-- The signal by which the kernel reports a fault class. -/
def FaultClass.signum : FaultClass → Int
  | FaultClass.segv => SIGSEGV
  | FaultClass.bus => SIGBUS

/-- What a one-byte load from an address does: it yields the stored byte, or
raises a fault (`segv` for an unmapped, null or no-access address, `bus` for
a mapping that reaches past the end of its backing object). -/
inductive Access where
  | byte (b : Nat)
  | fault (c : FaultClass)
  deriving DecidableEq, Repr

/-- The part of `sigjmp_buf` that is data: whether the signal mask was
saved, and the saved mask.  The saved execution context is the
continuation of `sigsetjmp` in `safe_read_uint8_t`. -/
structure sigjmp_buf where
  mask_was_saved : Bool
  saved_mask : sigset_t
  deriving DecidableEq

/-- Ghost events recorded by the kernel model. -/
inductive Event where
  | handler_called (h : Handler) (signum : Int)
  | siglongjmp
  deriving DecidableEq, Repr

/-- The state of the process: the disposition table and blocked set kept by
the kernel, the memory map, the globals of `main.cpp`
(`jump_buffer`, `safe_handler_expected`, `custom_handler_flag`), which
`sigaction` calls the environment refuses, and the ghost trace. -/
structure Process where
  handlers : Int → Sigaction
  blocked : sigset_t
  mem : Nat → Access
  sigaction_refused : Int → Bool
  jump_buffer : sigjmp_buf
  safe_handler_expected : Bool
  custom_handler_flag : Nat
  trace : List Event

/-- Number of `siglongjmp` events in a trace. -/
def jumps (t : List Event) : Nat := t.count Event.siglongjmp

/-- Number of times the kernel called handler `h` for signal `signum`. -/
def calls (h : Handler) (signum : Int) (t : List Event) : Nat :=
  t.count (Event.handler_called h signum)

/-! ## The system call `sigaction` -/

/-- The result of a `sigaction` call: the returned integer, the content of
the `oldact` buffer afterwards (`none` when the pointer was `NULL`), and the
process. -/
structure SigactionResult where
  ret : Int
  oldact : Option Sigaction
  proc : Process

/-- Whether `sigaction(signum, act, _)` reports an error in process `p`;
`installs` says that `act` is not `NULL`. -/
def sigaction_fails (signum : Int) (installs : Bool) (p : Process) : Bool :=
  !valid_signal signum
    || (installs && (decide (signum = SIGKILL) || decide (signum = SIGSTOP)))
    || p.sigaction_refused signum

/-- The system call `sigaction(signum, act, oldact)`.  `act = none` and
`oldact = none` stand for `NULL`; `oldact = some b` is a buffer holding `b`.
On failure nothing is written. -/
def sigaction (signum : Int) (act : Option Sigaction) (oldact : Option Sigaction)
    (p : Process) : SigactionResult :=
  if sigaction_fails signum act.isSome p then
    { ret := -1, oldact := oldact, proc := p }
  else
    { ret := 0
      oldact := oldact.map (fun _ => p.handlers signum)
      proc :=
        match act with
        | none => p
        | some a => { p with handlers := Function.update p.handlers signum a } }

/-! ## `struct sigaction_guard` -/

/-- The data members of `sigaction_guard`; `act` holds the pointee. -/
structure sigaction_guard where
  signum : Int
  act : Sigaction
  old_act : Sigaction

/-- The constructor `sigaction_guard(signum, act)`: `old_act` starts
value-initialised and `sigaction(signum, act, &old_act)` is called; its
return value is discarded. -/
def sigaction_guard.construct (signum : Int) (act : Sigaction) (p : Process) :
    sigaction_guard × Process :=
  let r := sigaction signum (some act) (some Sigaction.zero) p
  ({ signum := signum, act := act, old_act := r.oldact.getD Sigaction.zero }, r.proc)

/-- The destructor: `sigaction(signum, &old_act, NULL)`; its return value is
discarded. -/
def sigaction_guard.destroy (g : sigaction_guard) (p : Process) : Process :=
  (sigaction g.signum (some g.old_act) none p).proc

/-! ## Handlers and signal delivery -/

/-- How a handler hands control back: by returning, or by a non-local
jump to the recovery point. -/
inductive HandlerExit where
  | returned (p : Process)
  | jumped (p : Process)

/-- The library call `sigsetjmp(jump_buffer, savemask)` on its direct return
(value `0`): the blocked set is recorded when `savemask` is not zero. -/
def sigsetjmp (savemask : Int) (p : Process) : Process :=
  { p with
    jump_buffer :=
      if savemask = 0 then { p.jump_buffer with mask_was_saved := false }
      else { mask_was_saved := true, saved_mask := p.blocked } }

/-- The library call `siglongjmp(jump_buffer, 1)`: the blocked set recorded
by `sigsetjmp` is put back and control continues at the recovery point. -/
def siglongjmp (p : Process) : Process :=
  { p with
    blocked := if p.jump_buffer.mask_was_saved then p.jump_buffer.saved_mask else p.blocked
    trace := p.trace ++ [Event.siglongjmp] }

/-- The function `safe_handler(int)`: fires only once. -/
def safe_handler (_signum : Int) (p : Process) : HandlerExit :=
  if p.safe_handler_expected then
    HandlerExit.jumped (siglongjmp { p with safe_handler_expected := false })
  else
    HandlerExit.returned p

/-- The function `custom_handler(int)` of `main.cpp`. -/
def custom_handler (_signum : Int) (p : Process) : HandlerExit :=
  HandlerExit.returned { p with custom_handler_flag := 1 }

/-- The body run for a handler entry point. -/
def run_handler (h : Handler) (signum : Int) (p : Process) : HandlerExit :=
  match h with
  | Handler.safe_handler => safe_handler signum p
  | Handler.custom_handler => custom_handler signum p
  | Handler.SIG_DFL => HandlerExit.returned p
  | Handler.SIG_IGN => HandlerExit.returned p

/-- What the delivery of a signal leads to. -/
inductive Delivery where
  | resumed (p : Process)
  | jumped (p : Process)
  | killed (signum : Int) (p : Process)
  | pending (p : Process)

/-- The process at the first instruction of the handler for `signum`: the
signal itself (unless `SA_NODEFER`) and the action's `sa_mask` are blocked,
`SA_RESETHAND` puts the disposition back to the default, and the call is
recorded. -/
def handler_entry (signum : Int) (p : Process) : Process :=
  let act := p.handlers signum
  { p with
    blocked :=
      (p.blocked ∪ act.sa_mask) ∪ (if has_flag act.sa_flags SA_NODEFER then ∅ else {signum})
    handlers :=
      if has_flag act.sa_flags SA_RESETHAND then
        Function.update p.handlers signum { act with sa_handler := Handler.SIG_DFL }
      else p.handlers
    trace := p.trace ++ [Event.handler_called act.sa_handler signum] }

/-- The kernel calls the handler registered for `signum`; a normal return
restores the blocked set of the interrupted code. -/
def invoke (signum : Int) (p : Process) : Delivery :=
  match run_handler (p.handlers signum).sa_handler signum (handler_entry signum p) with
  | HandlerExit.returned q => Delivery.resumed { q with blocked := p.blocked }
  | HandlerExit.jumped q => Delivery.jumped q

/-- A synchronous memory fault of class `signum`: fatal when the signal is
blocked, ignored or at its default disposition, handled otherwise. -/
def fault (signum : Int) (p : Process) : Delivery :=
  if signum ∈ p.blocked then Delivery.killed signum p
  else
    match (p.handlers signum).sa_handler with
    | Handler.SIG_DFL => Delivery.killed signum p
    | Handler.SIG_IGN => Delivery.killed signum p
    | _ => invoke signum p

/-- The library call `raise(signum)` for a fault class (a signal whose default
action terminates the process): a blocked signal stays pending, an ignored
one is dropped. -/
def raise (signum : Int) (p : Process) : Delivery :=
  if signum ∈ p.blocked then Delivery.pending p
  else
    match (p.handlers signum).sa_handler with
    | Handler.SIG_DFL => Delivery.killed signum p
    | Handler.SIG_IGN => Delivery.resumed p
    | _ => invoke signum p

/-! ## The probe -/

/-- The outcome of the statement `uint8_t val = *p;`. -/
inductive Load where
  | value (b : Nat) (p : Process)
  | jumped (p : Process)
  | killed (signum : Int) (p : Process)
  | out_of_fuel (p : Process)

/-- The load `*p`.  A fault is delivered; when the handler returns normally
the instruction is executed again, at most `fuel` more times.  (`fault`
never leaves a signal pending; that case is listed for completeness.) -/
def load : Nat → Nat → Process → Load
  | fuel, a, p =>
    match p.mem a with
    | Access.byte b => Load.value b p
    | Access.fault c =>
      match fault c.signum p with
      | Delivery.jumped q => Load.jumped q
      | Delivery.killed s q => Load.killed s q
      | Delivery.pending q => Load.killed c.signum q
      | Delivery.resumed q =>
        match fuel with
        | 0 => Load.out_of_fuel q
        | n + 1 => load n a q

/-- How a call ends: it returns a value, the process is terminated by a
signal, or the faulting instruction is restarted for ever (no fuel is
enough). -/
inductive Outcome (α : Type) where
  | returned (v : α) (p : Process)
  | killed (signum : Int) (p : Process)
  | out_of_fuel (p : Process)

/-- The action `segv_act` built by `safe_read_uint8_t` (lines 34-39). -/
def segv_act : Sigaction :=
  { Sigaction.zero with
    sa_handler := Handler.safe_handler
    sa_mask := sigaddset (sigemptyset Sigaction.zero.sa_mask) SIGBUS }

/-- The action `bus_act` built by `safe_read_uint8_t` (lines 34-40). -/
def bus_act : Sigaction :=
  { Sigaction.zero with
    sa_handler := Handler.safe_handler
    sa_mask := sigaddset (sigemptyset Sigaction.zero.sa_mask) SIGSEGV }

/-- The function `safe_read_uint8_t(p)`.  The two guards are constructed in
declaration order and destroyed in reverse order on both ways out of the
function: the recovery point lies in the frame that owns them. -/
def safe_read_uint8_t (fuel : Nat) (ptr : Nat) (p0 : Process) : Outcome (Option Nat) :=
  let (segv_guard, p1) := sigaction_guard.construct SIGSEGV segv_act p0
  let (bus_guard, p2) := sigaction_guard.construct SIGBUS bus_act p1
  -- sigsetjmp(jump_buffer, 1) == 0
  let p3 := sigsetjmp 1 p2
  let p4 := { p3 with safe_handler_expected := true }
  match load fuel ptr p4 with
  | Load.value val p5 =>
    let p6 := { p5 with safe_handler_expected := false }
    Outcome.returned (some val) (segv_guard.destroy (bus_guard.destroy p6))
  | Load.jumped p5 =>
    -- sigsetjmp returns 1: return {}
    Outcome.returned none (segv_guard.destroy (bus_guard.destroy p5))
  | Load.killed s p5 => Outcome.killed s p5
  | Load.out_of_fuel p5 => Outcome.out_of_fuel p5

/-- Consecutive probe calls, one per address, as in the loops of `main`;
the results are collected in call order. -/
def probe_all (fuel : Nat) : List Nat → Process → Outcome (List (Option Nat))
  | [], p => Outcome.returned [] p
  | a :: rest, p =>
    match safe_read_uint8_t fuel a p with
    | Outcome.returned v q =>
      match probe_all fuel rest q with
      | Outcome.returned vs r => Outcome.returned (v :: vs) r
      | Outcome.killed s r => Outcome.killed s r
      | Outcome.out_of_fuel r => Outcome.out_of_fuel r
    | Outcome.killed s q => Outcome.killed s q
    | Outcome.out_of_fuel q => Outcome.out_of_fuel q

/-! ## The set-up of `main` -/

/-- The action `main` registers for both fault classes (lines 91-95). -/
def main_act : Sigaction :=
  { Sigaction.zero with
    sa_handler := Handler.custom_handler
    sa_mask := sigemptyset Sigaction.zero.sa_mask }

/-- A freshly started process: default dispositions, nothing blocked, the
globals zero, no call refused. -/
def boot (mem : Nat → Access) : Process :=
  { handlers := fun _ => Sigaction.zero
    blocked := ∅
    mem := mem
    sigaction_refused := fun _ => false
    jump_buffer := { mask_was_saved := false, saved_mask := ∅ }
    safe_handler_expected := false
    custom_handler_flag := 0
    trace := [] }

/-- The two guards of `main` (line 96), which register `custom_handler`. -/
def main_setup (p : Process) : Process :=
  (sigaction_guard.construct SIGBUS main_act
    (sigaction_guard.construct SIGSEGV main_act p).2).2

/-- A small memory map: address `0` is not mapped, address `1` holds `30`,
address `2` lies in a mapping past the end of its object, address `3`
holds `90`, every other address is not mapped. -/
def demo_mem : Nat → Access
  | 1 => Access.byte 30
  | 2 => Access.fault FaultClass.bus
  | 3 => Access.byte 90
  | _ => Access.fault FaultClass.segv

/-- The process of `main` after its set-up, over `demo_mem`. -/
def demo : Process := main_setup (boot demo_mem)

/-! ## Named intermediate states of the probe -/

/-- The action the probe registers for a fault class. -/
def probe_act : FaultClass → Sigaction
  | FaultClass.segv => segv_act
  | FaultClass.bus => bus_act

/-- The process at the load: both guards constructed, the recovery point
established, the flag armed (lines 41-44). -/
def armed (p : Process) : Process :=
  { sigsetjmp 1 (sigaction_guard.construct SIGBUS bus_act
      (sigaction_guard.construct SIGSEGV segv_act p).2).2 with
    safe_handler_expected := true }

/-- The state a returning probe leaves behind when started in `p`: the
recovery point and the cleared flag are all that remains, with the events
`evs` added to the trace. -/
def after_probe (p : Process) (evs : List Event) : Process :=
  { p with
    jump_buffer := { mask_was_saved := true, saved_mask := p.blocked }
    safe_handler_expected := false
    trace := p.trace ++ evs }

/-- The value a probe returns for what the load does. -/
def probe_value : Access → Option Nat
  | Access.byte b => some b
  | Access.fault _ => none

/-- The events a probe adds to the trace for what the load does. -/
def probe_events : Access → List Event
  | Access.byte _ => []
  | Access.fault c => [Event.handler_called Handler.safe_handler c.signum, Event.siglongjmp]

/-! ## Nested guards on one signal -/

/-- One step of a scope discipline: a guard is constructed, or the guard
constructed last is destroyed. -/
inductive GuardOp where
  | construct (act : Sigaction)
  | destroy

/-- Runs guard operations on signal `c`, keeping the live guards on a stack
(innermost first); `none` when a destruction finds no live guard. -/
def run_guards (c : Int) :
    List GuardOp → List sigaction_guard → Process → Option (List sigaction_guard × Process)
  | [], st, p => some (st, p)
  | GuardOp.construct a :: ops, st, p =>
    run_guards c ops ((sigaction_guard.construct c a p).1 :: st)
      (sigaction_guard.construct c a p).2
  | GuardOp.destroy :: ops, g :: st, p => run_guards c ops st (g.destroy p)
  | GuardOp.destroy :: _, [], _ => none

/-- Whether a sequence of guard operations, started with `depth` live
guards, is strictly nested and ends with no live guard. -/
def well_nested : Nat → List GuardOp → Bool
  | depth, [] => depth == 0
  | depth, GuardOp.construct _ :: ops => well_nested (depth + 1) ops
  | depth + 1, GuardOp.destroy :: ops => well_nested depth ops
  | 0, GuardOp.destroy :: _ => false

/-- Destroys the live guards, innermost first. -/
def unwind : List sigaction_guard → Process → Process
  | [], p => p
  | g :: st, p => unwind st (g.destroy p)

/-! ## Concrete processes used as examples -/

/-- The process `demo` inside a probe, between the construction of the
guards and the arming of the flag: `safe_handler` is registered for both
classes over `custom_handler`, and the flag is `false`. -/
def demo_installed : Process :=
  (sigaction_guard.construct SIGBUS bus_act
    (sigaction_guard.construct SIGSEGV segv_act demo).2).2

/-- The process `demo` in an environment that refuses every `sigaction`
call. -/
def demo_refusing : Process :=
  { demo with sigaction_refused := fun _ => true }

end SafeRead

/-! ## The pool allocator of `memory_pool/test.cpp` -/

namespace MemoryPool

/-- The constant `PAGE_SIZE`. -/
def PAGE_SIZE : Nat := 4096

/-- The constant `RESERVED_PAGES`. -/
def RESERVED_PAGES : Nat := 1024 * 1024

/-- Number of values of `size_t` and of a pointer (64 bits). -/
def WORD : Nat := 2 ^ 64

/-- The data members of `pool_allocator_base`, as addresses. -/
structure pool_allocator_base where
  first_free : Nat
  bottom : Nat
  deriving DecidableEq, Repr

/-- The value `MAP_FAILED`, `(void *)-1`. -/
def MAP_FAILED : Nat := WORD - 1

/-- The constructor `pool_allocator_base(sz)`.  `mem` is the address the
first `mmap` returns; the second one, a `MAP_FIXED` request for the last
page of the range, returns the address asked for when `fixed_ok` and
`MAP_FAILED` otherwise.  The stack limit is not part of the model. -/
def pool_allocator_base.construct (sz mem : Nat) ( fixed_ok : Bool) : pool_allocator_base :=
  let top_page := if fixed_ok then (mem + (sz + WORD - PAGE_SIZE) % WORD) % WORD else MAP_FAILED
  { bottom := mem
    first_free := (top_page + PAGE_SIZE) % WORD }

/-- The member `pool_allocator<T>::allocate(n)` with `sizeof(T) = sizeof_T`,
in 64-bit arithmetic.  `first_free` is lowered first; `none` stands for
`throw std::bad_alloc()`, `some res` for `return res`. -/
def allocate (sizeof_T n : Nat) (s : pool_allocator_base) : Option Nat × pool_allocator_base :=
  let res := (s.first_free + WORD - (sizeof_T * n) % WORD) % WORD
  let s1 := { s with first_free := res }
  if res < s.bottom then (none, s1) else (some res, s1)

/-- The member `pool_allocator<T>::deallocate(ptr, n)`: an empty body. -/
def deallocate (_ptr _n : Nat) (s : pool_allocator_base) : pool_allocator_base := s

/-- The size of `struct Edge` (a pointer and an `int`, padded). -/
def sizeof_Edge : Nat := 16

/-- The shared pool `pool_allocator_base::instance` when the reserved range
starts at `0x7f0000000000` and the fixed mapping succeeds. -/
def instance_pool : pool_allocator_base :=
  pool_allocator_base.construct (PAGE_SIZE * RESERVED_PAGES) 0x7f0000000000 true

/-- A sequence of `allocate` calls; each result is paired with the number of
bytes asked for. -/
def allocate_all (sizeof_T : Nat) :
    List Nat → pool_allocator_base → List (Option Nat × Nat) × pool_allocator_base
  | [], s => ([], s)
  | n :: ns, s =>
    let r := allocate sizeof_T n s
    let rest := allocate_all sizeof_T ns r.2
    ((r.1, sizeof_T * n) :: rest.1, rest.2)

end MemoryPool

namespace SafeRead

/-! ## Basic facts about `sigaction` and the guard -/

theorem sigaction_frame (signum : Int) (act oldact : Option Sigaction) (p : Process) :
    (sigaction signum act oldact p).proc.blocked = p.blocked
    ∧ (sigaction signum act oldact p).proc.mem = p.mem
    ∧ (sigaction signum act oldact p).proc.sigaction_refused = p.sigaction_refused
    ∧ (sigaction signum act oldact p).proc.jump_buffer = p.jump_buffer
    ∧ (sigaction signum act oldact p).proc.safe_handler_expected = p.safe_handler_expected
    ∧ (sigaction signum act oldact p).proc.custom_handler_flag = p.custom_handler_flag
    ∧ (sigaction signum act oldact p).proc.trace = p.trace := by
  unfold sigaction
  split
  · simp
  · cases act <;> simp

@[simp] theorem construct_blocked (c : Int) (a : Sigaction) (p : Process) :
    (sigaction_guard.construct c a p).2.blocked = p.blocked :=
  (sigaction_frame c (some a) (some Sigaction.zero) p).1

@[simp] theorem construct_mem (c : Int) (a : Sigaction) (p : Process) :
    (sigaction_guard.construct c a p).2.mem = p.mem :=
  (sigaction_frame c (some a) (some Sigaction.zero) p).2.1

@[simp] theorem construct_refused (c : Int) (a : Sigaction) (p : Process) :
    (sigaction_guard.construct c a p).2.sigaction_refused = p.sigaction_refused :=
  (sigaction_frame c (some a) (some Sigaction.zero) p).2.2.1

@[simp] theorem construct_jump_buffer (c : Int) (a : Sigaction) (p : Process) :
    (sigaction_guard.construct c a p).2.jump_buffer = p.jump_buffer :=
  (sigaction_frame c (some a) (some Sigaction.zero) p).2.2.2.1

@[simp] theorem construct_expected (c : Int) (a : Sigaction) (p : Process) :
    (sigaction_guard.construct c a p).2.safe_handler_expected = p.safe_handler_expected :=
  (sigaction_frame c (some a) (some Sigaction.zero) p).2.2.2.2.1

@[simp] theorem construct_custom_flag (c : Int) (a : Sigaction) (p : Process) :
    (sigaction_guard.construct c a p).2.custom_handler_flag = p.custom_handler_flag :=
  (sigaction_frame c (some a) (some Sigaction.zero) p).2.2.2.2.2.1

@[simp] theorem construct_trace (c : Int) (a : Sigaction) (p : Process) :
    (sigaction_guard.construct c a p).2.trace = p.trace :=
  (sigaction_frame c (some a) (some Sigaction.zero) p).2.2.2.2.2.2

@[simp] theorem construct_signum (c : Int) (a : Sigaction) (p : Process) :
    (sigaction_guard.construct c a p).1.signum = c := rfl

@[simp] theorem destroy_blocked (g : sigaction_guard) (p : Process) :
    (g.destroy p).blocked = p.blocked :=
  (sigaction_frame g.signum (some g.old_act) none p).1

@[simp] theorem destroy_mem (g : sigaction_guard) (p : Process) :
    (g.destroy p).mem = p.mem :=
  (sigaction_frame g.signum (some g.old_act) none p).2.1

@[simp] theorem destroy_refused (g : sigaction_guard) (p : Process) :
    (g.destroy p).sigaction_refused = p.sigaction_refused :=
  (sigaction_frame g.signum (some g.old_act) none p).2.2.1

@[simp] theorem destroy_jump_buffer (g : sigaction_guard) (p : Process) :
    (g.destroy p).jump_buffer = p.jump_buffer :=
  (sigaction_frame g.signum (some g.old_act) none p).2.2.2.1

@[simp] theorem destroy_expected (g : sigaction_guard) (p : Process) :
    (g.destroy p).safe_handler_expected = p.safe_handler_expected :=
  (sigaction_frame g.signum (some g.old_act) none p).2.2.2.2.1

@[simp] theorem destroy_custom_flag (g : sigaction_guard) (p : Process) :
    (g.destroy p).custom_handler_flag = p.custom_handler_flag :=
  (sigaction_frame g.signum (some g.old_act) none p).2.2.2.2.2.1

@[simp] theorem destroy_trace (g : sigaction_guard) (p : Process) :
    (g.destroy p).trace = p.trace :=
  (sigaction_frame g.signum (some g.old_act) none p).2.2.2.2.2.2

theorem fails_of_refused_eq {p q : Process} (c : Int) (b : Bool)
    (h : q.sigaction_refused = p.sigaction_refused) :
    sigaction_fails c b q = sigaction_fails c b p := by
  simp [sigaction_fails, h]

theorem construct_of_accepted (c : Int) (a : Sigaction) (p : Process)
    (h : sigaction_fails c true p = false) :
    sigaction_guard.construct c a p
      = ({ signum := c, act := a, old_act := p.handlers c },
         { p with handlers := Function.update p.handlers c a }) := by
  simp [sigaction_guard.construct, sigaction, h]

theorem destroy_of_accepted (g : sigaction_guard) (p : Process)
    (h : sigaction_fails g.signum true p = false) :
    g.destroy p = { p with handlers := Function.update p.handlers g.signum g.old_act } := by
  simp [sigaction_guard.destroy, sigaction, h]

theorem construct_of_failed (c : Int) (a : Sigaction) (p : Process)
    (h : sigaction_fails c true p = true) :
    sigaction_guard.construct c a p
      = ({ signum := c, act := a, old_act := Sigaction.zero }, p) := by
  simp [sigaction_guard.construct, sigaction, h]

theorem destroy_of_failed (g : sigaction_guard) (p : Process)
    (h : sigaction_fails g.signum true p = true) : g.destroy p = p := by
  simp [sigaction_guard.destroy, sigaction, h]

theorem fails_segv (p : Process) :
    sigaction_fails SIGSEGV true p = p.sigaction_refused SIGSEGV := by
  simp [sigaction_fails, valid_signal, SIGSEGV, SIGKILL, SIGSTOP]

theorem fails_bus (p : Process) :
    sigaction_fails SIGBUS true p = p.sigaction_refused SIGBUS := by
  simp [sigaction_fails, valid_signal, SIGBUS, SIGKILL, SIGSTOP]

theorem fails_fault_class (p : Process) (c : FaultClass) :
    sigaction_fails c.signum true p = p.sigaction_refused c.signum := by
  cases c
  · exact fails_segv p
  · exact fails_bus p

theorem has_flag_zero (bit : Nat) : has_flag 0 bit = false := by
  simp [has_flag]

theorem segv_ne_bus : SIGSEGV ≠ SIGBUS := by decide

theorem segv_act_mask : segv_act.sa_mask = {SIGBUS} := by
  simp [segv_act, sigaddset, sigemptyset, valid_signal, SIGBUS]

theorem bus_act_mask : bus_act.sa_mask = {SIGSEGV} := by
  simp [bus_act, sigaddset, sigemptyset, valid_signal, SIGSEGV]

@[simp] theorem segv_act_handler : segv_act.sa_handler = Handler.safe_handler := rfl

@[simp] theorem bus_act_handler : bus_act.sa_handler = Handler.safe_handler := rfl

@[simp] theorem segv_act_flags : segv_act.sa_flags = 0 := rfl

@[simp] theorem bus_act_flags : bus_act.sa_flags = 0 := rfl

theorem probe_act_handler (c : FaultClass) : (probe_act c).sa_handler = Handler.safe_handler := by
  cases c <;> rfl

theorem probe_act_flags (c : FaultClass) : (probe_act c).sa_flags = 0 := by
  cases c <;> rfl

theorem update_restore (f : Int → Sigaction) (a : Sigaction) :
    Function.update (Function.update (Function.update f SIGSEGV a) SIGBUS (f SIGBUS))
      SIGSEGV (f SIGSEGV) = f := by
  funext x
  by_cases h1 : x = SIGSEGV
  · simp [Function.update, h1]
  · by_cases h2 : x = SIGBUS
    · subst h2; simp [Function.update, h1]
    · simp [Function.update, h1, h2]

/-! ## The two ways through the probe -/

theorem safe_read_uint8_t_eq (fuel a : Nat) (p : Process) :
    safe_read_uint8_t fuel a p =
      match load fuel a (armed p) with
      | Load.value val p5 =>
        Outcome.returned (some val)
          ((sigaction_guard.construct SIGSEGV segv_act p).1.destroy
            ((sigaction_guard.construct SIGBUS bus_act
                (sigaction_guard.construct SIGSEGV segv_act p).2).1.destroy
              { p5 with safe_handler_expected := false }))
      | Load.jumped p5 =>
        Outcome.returned none
          ((sigaction_guard.construct SIGSEGV segv_act p).1.destroy
            ((sigaction_guard.construct SIGBUS bus_act
                (sigaction_guard.construct SIGSEGV segv_act p).2).1.destroy p5))
      | Load.killed s p5 => Outcome.killed s p5
      | Load.out_of_fuel p5 => Outcome.out_of_fuel p5 := rfl

theorem load_readable (fuel a b : Nat) (p : Process) (h : p.mem a = Access.byte b) :
    load fuel a p = Load.value b p := by
  cases fuel <;> simp [load, h]

theorem safe_read_value (fuel a b : Nat) (p : Process) (h : p.mem a = Access.byte b) :
    safe_read_uint8_t fuel a p = Outcome.returned (some b) (after_probe p []) := by
  have hl : load fuel a (armed p) = Load.value b (armed p) :=
    load_readable fuel a b _ (by simpa [armed, sigsetjmp] using h)
  simp only [safe_read_uint8_t_eq, hl]
  congr 1
  cases h1 : p.sigaction_refused SIGSEGV <;> cases h2 : p.sigaction_refused SIGBUS <;>
    simp [armed, sigaction_guard.construct, sigaction_guard.destroy, sigaction, fails_segv,
      fails_bus, h1, h2, sigsetjmp, after_probe, segv_ne_bus, segv_ne_bus.symm, update_restore]

theorem armed_handlers (p : Process) (c : FaultClass)
    (hr : p.sigaction_refused c.signum = false) :
    (armed p).handlers c.signum = probe_act c := by
  cases c <;> cases h1 : p.sigaction_refused SIGSEGV <;> cases h2 : p.sigaction_refused SIGBUS <;>
    simp [FaultClass.signum, h1, h2] at hr <;>
    simp [armed, sigsetjmp, sigaction_guard.construct, sigaction, fails_segv, fails_bus, h1, h2,
      FaultClass.signum, probe_act, segv_ne_bus, segv_ne_bus.symm]

theorem fault_safe_handler (sig : Int) (s : Process)
    (hh : (s.handlers sig).sa_handler = Handler.safe_handler) (hb : sig ∉ s.blocked)
    (he : s.safe_handler_expected = true) :
    fault sig s
      = Delivery.jumped (siglongjmp { handler_entry sig s with safe_handler_expected := false }) := by
  have he2 : (handler_entry sig s).safe_handler_expected = true := by simpa [handler_entry] using he
  simp [fault, hb, hh, invoke, run_handler, safe_handler, he2]

theorem load_fault_armed (fuel a : Nat) (c : FaultClass) (p : Process)
    (h : p.mem a = Access.fault c) (hb : c.signum ∉ p.blocked)
    (hr : p.sigaction_refused c.signum = false) :
    load fuel a (armed p)
      = Load.jumped
          (siglongjmp { handler_entry c.signum (armed p) with safe_handler_expected := false }) := by
  have hm : (armed p).mem a = Access.fault c := by simpa [armed, sigsetjmp] using h
  have hf := fault_safe_handler c.signum (armed p)
    (by rw [armed_handlers p c hr, probe_act_handler])
    (by simpa [armed, sigsetjmp] using hb) (by simp [armed])
  cases fuel <;> simp [load, hm, hf]

theorem safe_read_fault (fuel a : Nat) (c : FaultClass) (p : Process)
    (h : p.mem a = Access.fault c) (hb : c.signum ∉ p.blocked)
    (hr : p.sigaction_refused c.signum = false) :
    safe_read_uint8_t fuel a p = Outcome.returned none
      (after_probe p [Event.handler_called Handler.safe_handler c.signum, Event.siglongjmp]) := by
  have hl := load_fault_armed fuel a c p h hb hr
  simp only [safe_read_uint8_t_eq, hl]
  congr 1
  cases c <;> cases h1 : p.sigaction_refused SIGSEGV <;> cases h2 : p.sigaction_refused SIGBUS <;>
    simp [FaultClass.signum, h1, h2] at hr <;>
    simp [armed, sigaction_guard.construct, sigaction_guard.destroy, sigaction, fails_segv,
      fails_bus, h1, h2, sigsetjmp, after_probe, siglongjmp, handler_entry, FaultClass.signum,
      has_flag_zero, segv_ne_bus, segv_ne_bus.symm, update_restore]

theorem handler_entry_armed_blocked (p : Process) (c : FaultClass)
    (hr : p.sigaction_refused c.signum = false) :
    (handler_entry c.signum (armed p)).blocked = insert SIGSEGV (insert SIGBUS p.blocked) := by
  have hx := armed_handlers p c hr
  have hb : (armed p).blocked = p.blocked := by simp [armed, sigsetjmp]
  simp only [handler_entry, hx, probe_act_flags, has_flag_zero, hb]
  cases c
  · simp only [probe_act, segv_act_mask, FaultClass.signum]
    ext x; simp only [Finset.mem_union, Finset.mem_insert, Finset.mem_singleton]
    simp; tauto
  · simp only [probe_act, bus_act_mask, FaultClass.signum]
    ext x; simp only [Finset.mem_union, Finset.mem_insert, Finset.mem_singleton]
    simp; tauto

theorem safe_read_step (fuel a : Nat) (p : Process)
    (hb : SIGSEGV ∉ p.blocked ∧ SIGBUS ∉ p.blocked)
    (hr : p.sigaction_refused SIGSEGV = false ∧ p.sigaction_refused SIGBUS = false) :
    safe_read_uint8_t fuel a p
      = Outcome.returned (probe_value (p.mem a)) (after_probe p (probe_events (p.mem a))) := by
  cases h : p.mem a with
  | byte b => simpa [probe_value, probe_events] using safe_read_value fuel a b p h
  | fault c =>
    cases c
    · exact safe_read_fault fuel a FaultClass.segv p h hb.1 hr.1
    · exact safe_read_fault fuel a FaultClass.bus p h hb.2 hr.2

/-! ## Facts about the example processes -/

theorem demo_blocked : demo.blocked = ∅ := by
  simp [demo, main_setup, boot]

theorem demo_refused (c : Int) : demo.sigaction_refused c = false := by
  simp [demo, main_setup, boot]

theorem demo_mem_eq : demo.mem = demo_mem := by
  simp [demo, main_setup, boot]

theorem demo_expected : demo.safe_handler_expected = false := by
  simp [demo, main_setup, boot]

theorem demo_trace : demo.trace = [] := by
  simp [demo, main_setup, boot]

theorem demo_handlers (c : FaultClass) : demo.handlers c.signum = main_act := by
  cases c <;>
    simp [demo, main_setup, boot, sigaction_guard.construct, sigaction, fails_segv, fails_bus,
      FaultClass.signum, segv_ne_bus]

/-! ## The claims about the probe -/

/-- Claim C1.  For every address that is readable at call time and every
process state (whatever the handler table, the blocked set, the flag and the
environment), `safe_read_uint8_t` returns the present optional holding the
byte stored at the address; no handler is called and no jump is made (the
ghost trace is unchanged), and the memory is untouched. -/
theorem safe_read_uint8_t_readable (fuel a b : Nat) (p : Process)
    (h : p.mem a = Access.byte b) :
    ∃ q, safe_read_uint8_t fuel a p = Outcome.returned (some b) q
      ∧ q.trace = p.trace ∧ q.mem = p.mem ∧ q.mem a = Access.byte b := by
  refine ⟨after_probe p [], safe_read_value fuel a b p h, ?_, rfl, h⟩
  simp [after_probe]

/-- Witness for C1: the stack-variable scenario of `main`, a readable byte
holding `30`. -/
theorem safe_read_uint8_t_readable_witness :
    demo.mem 1 = Access.byte 30
    ∧ ∃ q, safe_read_uint8_t 0 1 demo = Outcome.returned (some 30) q
      ∧ q.trace = demo.trace ∧ q.mem = demo.mem ∧ q.mem 1 = Access.byte 30 :=
  ⟨by rw [demo_mem_eq]; rfl, safe_read_uint8_t_readable 0 1 30 demo (by rw [demo_mem_eq]; rfl)⟩

/-- Claim C2.  For every address whose one-byte read raises a fault of class
`c` (`SIGSEGV` or `SIGBUS`), in a process where that signal is not blocked and
`sigaction` is not refused for it, `safe_read_uint8_t` returns normally with
the empty optional, for every amount of fuel; `safe_handler` was called once
for that signal and jumped once, and the result does not depend on the
class. -/
theorem safe_read_uint8_t_faulting (fuel a : Nat) (c : FaultClass) (p : Process)
    (h : p.mem a = Access.fault c) (hb : c.signum ∉ p.blocked)
    (hr : p.sigaction_refused c.signum = false) :
    ∃ q, safe_read_uint8_t fuel a p = Outcome.returned none q
      ∧ q.trace = p.trace ++ [Event.handler_called Handler.safe_handler c.signum, Event.siglongjmp]
      ∧ q.mem = p.mem := by
  refine ⟨_, safe_read_fault fuel a c p h hb hr, ?_, rfl⟩
  simp [after_probe]

/-- Witness for C2: the `SIGBUS` scenario of `main` (a mapping past the end
of its object). -/
theorem safe_read_uint8_t_faulting_witness :
    demo.mem 2 = Access.fault FaultClass.bus
    ∧ FaultClass.bus.signum ∉ demo.blocked
    ∧ demo.sigaction_refused FaultClass.bus.signum = false
    ∧ ∃ q, safe_read_uint8_t 0 2 demo = Outcome.returned none q
      ∧ q.trace = demo.trace
          ++ [Event.handler_called Handler.safe_handler FaultClass.bus.signum, Event.siglongjmp]
      ∧ q.mem = demo.mem :=
  ⟨by rw [demo_mem_eq]; rfl, by simp [demo_blocked], demo_refused _,
    safe_read_uint8_t_faulting 0 2 FaultClass.bus demo (by rw [demo_mem_eq]; rfl)
      (by simp [demo_blocked]) (demo_refused _)⟩

/-- Claim C9.  For every probe call whose read faults (signal not blocked,
`sigaction` not refused for it), the blocked set when the call returns
equals the blocked set at the moment the recovery point was established;
while `safe_handler` runs, both fault classes are blocked in addition (the
delivered class and the class of the action's mask), and the jump undoes
that because `sigsetjmp` saved the mask.  A second faulting probe made
right after the first is trapped again and also returns the empty
optional, with the same blocked set. -/
theorem safe_read_uint8_t_restores_mask (fuel a1 a2 : Nat) (c1 c2 : FaultClass) (p : Process)
    (h1 : p.mem a1 = Access.fault c1) (h2 : p.mem a2 = Access.fault c2)
    (hb1 : c1.signum ∉ p.blocked) (hb2 : c2.signum ∉ p.blocked)
    (hr1 : p.sigaction_refused c1.signum = false)
    (hr2 : p.sigaction_refused c2.signum = false) :
    (armed p).jump_buffer = { mask_was_saved := true, saved_mask := p.blocked }
    ∧ (handler_entry c1.signum (armed p)).blocked = insert SIGSEGV (insert SIGBUS p.blocked)
    ∧ ∃ q, safe_read_uint8_t fuel a1 p = Outcome.returned none q
        ∧ q.blocked = p.blocked
        ∧ ∃ r, safe_read_uint8_t fuel a2 q = Outcome.returned none r
            ∧ r.blocked = p.blocked := by
  refine ⟨by simp [armed, sigsetjmp], handler_entry_armed_blocked p c1 hr1, _,
    safe_read_fault fuel a1 c1 p h1 hb1 hr1, rfl, _,
    safe_read_fault fuel a2 c2 _ (by simpa [after_probe] using h2)
      (by simpa [after_probe] using hb2) (by simpa [after_probe] using hr2), rfl⟩

/-- Witness for C9: the null-pointer probe of `main` followed by the
`SIGBUS` probe. -/
theorem safe_read_uint8_t_restores_mask_witness :
    (demo.mem 0 = Access.fault FaultClass.segv ∧ demo.mem 2 = Access.fault FaultClass.bus)
    ∧ (FaultClass.segv.signum ∉ demo.blocked ∧ FaultClass.bus.signum ∉ demo.blocked)
    ∧ (armed demo).jump_buffer = { mask_was_saved := true, saved_mask := demo.blocked }
    ∧ (handler_entry FaultClass.segv.signum (armed demo)).blocked
        = insert SIGSEGV (insert SIGBUS demo.blocked)
    ∧ ∃ q, safe_read_uint8_t 0 0 demo = Outcome.returned none q
        ∧ q.blocked = demo.blocked
        ∧ ∃ r, safe_read_uint8_t 0 2 q = Outcome.returned none r
            ∧ r.blocked = demo.blocked :=
  have h0 : demo.mem 0 = Access.fault FaultClass.segv := by rw [demo_mem_eq]; rfl
  have h2 : demo.mem 2 = Access.fault FaultClass.bus := by rw [demo_mem_eq]; rfl
  have hb0 : FaultClass.segv.signum ∉ demo.blocked := by simp [demo_blocked]
  have hb2 : FaultClass.bus.signum ∉ demo.blocked := by simp [demo_blocked]
  ⟨⟨h0, h2⟩, ⟨hb0, hb2⟩,
    safe_read_uint8_t_restores_mask 0 0 2 FaultClass.segv FaultClass.bus demo h0 h2 hb0 hb2
      (demo_refused _) (demo_refused _)⟩

/-! ## Consecutive probes and the external handler -/

theorem probe_all_spec (fuel : Nat) :
    ∀ (addrs : List Nat) (p : Process),
      (SIGSEGV ∉ p.blocked ∧ SIGBUS ∉ p.blocked) →
      (p.sigaction_refused SIGSEGV = false ∧ p.sigaction_refused SIGBUS = false) →
      ∃ q, probe_all fuel addrs p
            = Outcome.returned (addrs.map (fun a => probe_value (p.mem a))) q
        ∧ q.handlers = p.handlers ∧ q.blocked = p.blocked ∧ q.mem = p.mem
        ∧ q.sigaction_refused = p.sigaction_refused
        ∧ q.custom_handler_flag = p.custom_handler_flag
        ∧ ∀ c, calls Handler.custom_handler c q.trace = calls Handler.custom_handler c p.trace := by
  intro addrs
  induction addrs with
  | nil => intro p _ _; exact ⟨p, rfl, rfl, rfl, rfl, rfl, rfl, fun _ => rfl⟩
  | cons a rest ih =>
    intro p hb hr
    obtain ⟨q, hq, hh, hbl, hm, hrf, hcf, hc⟩ :=
      ih (after_probe p (probe_events (p.mem a))) (by simpa [after_probe] using hb)
        (by simpa [after_probe] using hr)
    refine ⟨q, ?_, hh, hbl, hm, hrf, hcf, ?_⟩
    · simp only [probe_all, safe_read_step fuel a p hb hr, hq, List.map_cons]
      rfl
    · intro c
      rw [hc c]
      cases h : p.mem a <;> simp [after_probe, probe_events, calls, List.count_cons]

theorem raise_custom_handler (sig : Int) (s : Process)
    (hh : (s.handlers sig).sa_handler = Handler.custom_handler) (hb : sig ∉ s.blocked) :
    ∃ r, raise sig s = Delivery.resumed r
      ∧ r.trace = s.trace ++ [Event.handler_called Handler.custom_handler sig]
      ∧ r.custom_handler_flag = 1 := by
  simp [raise, hb, hh, invoke, run_handler, custom_handler, handler_entry]

/-- Claim C3.  Start with `custom_handler` registered for `SIGSEGV` and
`SIGBUS`, neither signal blocked and `sigaction` not refused for them.  Then
every finite sequence of probe calls, on any mix of readable and faulting
addresses, returns (each call yields the byte or the empty optional), the
handler table after the last call is the table before the first, the
probes never called the external handler, and a fault of either class
raised afterwards is dispatched to the external handler exactly once. -/
theorem probe_all_transparent (fuel : Nat) (addrs : List Nat) (p : Process)
    (hsegv : (p.handlers SIGSEGV).sa_handler = Handler.custom_handler)
    (hbus : (p.handlers SIGBUS).sa_handler = Handler.custom_handler)
    (hb : SIGSEGV ∉ p.blocked ∧ SIGBUS ∉ p.blocked)
    (hr : p.sigaction_refused SIGSEGV = false ∧ p.sigaction_refused SIGBUS = false) :
    ∃ q, probe_all fuel addrs p
          = Outcome.returned (addrs.map (fun a => probe_value (p.mem a))) q
      ∧ q.handlers = p.handlers
      ∧ (∀ c, calls Handler.custom_handler c q.trace = calls Handler.custom_handler c p.trace)
      ∧ ∀ c : FaultClass, ∃ r, raise c.signum q = Delivery.resumed r
          ∧ r.trace = q.trace ++ [Event.handler_called Handler.custom_handler c.signum]
          ∧ r.custom_handler_flag = 1 := by
  obtain ⟨q, hq, hh, hbl, _, _, _, hc⟩ := probe_all_spec fuel addrs p hb hr
  refine ⟨q, hq, hh, hc, ?_⟩
  intro c
  cases c
  · exact raise_custom_handler SIGSEGV q (by rw [hh]; exact hsegv) (by rw [hbl]; exact hb.1)
  · exact raise_custom_handler SIGBUS q (by rw [hh]; exact hbus) (by rw [hbl]; exact hb.2)

/-- Witness for C3: four probes of `main` (null, stack variable, `SIGBUS`
mapping, global) in the process `main` sets up. -/
theorem probe_all_transparent_witness :
    ((demo.handlers SIGSEGV).sa_handler = Handler.custom_handler
      ∧ (demo.handlers SIGBUS).sa_handler = Handler.custom_handler)
    ∧ (SIGSEGV ∉ demo.blocked ∧ SIGBUS ∉ demo.blocked)
    ∧ (demo.sigaction_refused SIGSEGV = false ∧ demo.sigaction_refused SIGBUS = false)
    ∧ ∃ q, probe_all 0 [0, 1, 2, 3] demo = Outcome.returned [none, some 30, none, some 90] q
      ∧ q.handlers = demo.handlers
      ∧ (∀ c, calls Handler.custom_handler c q.trace
            = calls Handler.custom_handler c demo.trace)
      ∧ ∀ c : FaultClass, ∃ r, raise c.signum q = Delivery.resumed r
          ∧ r.trace = q.trace ++ [Event.handler_called Handler.custom_handler c.signum]
          ∧ r.custom_handler_flag = 1 :=
  have hs : (demo.handlers SIGSEGV).sa_handler = Handler.custom_handler := by
    rw [show SIGSEGV = FaultClass.segv.signum from rfl, demo_handlers]; rfl
  have hbus : (demo.handlers SIGBUS).sa_handler = Handler.custom_handler := by
    rw [show SIGBUS = FaultClass.bus.signum from rfl, demo_handlers]; rfl
  have hb : SIGSEGV ∉ demo.blocked ∧ SIGBUS ∉ demo.blocked := by simp [demo_blocked]
  have hr : demo.sigaction_refused SIGSEGV = false ∧ demo.sigaction_refused SIGBUS = false :=
    ⟨demo_refused _, demo_refused _⟩
  ⟨⟨hs, hbus⟩, hb, hr, by
    simpa [demo_mem_eq, demo_mem, probe_value] using
      probe_all_transparent 0 [0, 1, 2, 3] demo hs hbus hb hr⟩

/-! ## The arming flag -/

theorem jumps_append (t u : List Event) : jumps (t ++ u) = jumps t + jumps u := by
  simp [jumps]

theorem run_handler_returned (h : Handler) (sig : Int) (s q : Process)
    (hq : run_handler h sig s = HandlerExit.returned q) : q.trace = s.trace := by
  cases h with
  | SIG_DFL => simp only [run_handler] at hq; injection hq with hq; rw [hq]
  | SIG_IGN => simp only [run_handler] at hq; injection hq with hq; rw [hq]
  | safe_handler =>
    simp only [run_handler, safe_handler] at hq
    split at hq
    · cases hq
    · injection hq with hq; rw [hq]
  | custom_handler =>
    simp only [run_handler, custom_handler] at hq
    injection hq with hq; rw [← hq]

theorem run_handler_jumped (h : Handler) (sig : Int) (s q : Process)
    (hq : run_handler h sig s = HandlerExit.jumped q) :
    q.safe_handler_expected = false ∧ q.trace = s.trace ++ [Event.siglongjmp] := by
  cases h with
  | SIG_DFL => simp only [run_handler] at hq; cases hq
  | SIG_IGN => simp only [run_handler] at hq; cases hq
  | safe_handler =>
    simp only [run_handler, safe_handler] at hq
    split at hq
    · injection hq with hq; rw [← hq]; simp [siglongjmp]
    · cases hq
  | custom_handler => simp only [run_handler, custom_handler] at hq; cases hq

theorem handler_entry_jumps (sig : Int) (s : Process) :
    jumps (handler_entry sig s).trace = jumps s.trace := by
  simp [handler_entry, jumps]

theorem invoke_resumed (sig : Int) (s q : Process)
    (hq : invoke sig s = Delivery.resumed q) : jumps q.trace = jumps s.trace := by
  unfold invoke at hq
  split at hq
  · next r hr =>
    injection hq with hq
    rw [← hq]
    simp only []
    rw [run_handler_returned _ _ _ _ hr, handler_entry_jumps]
  · cases hq

theorem invoke_jumped (sig : Int) (s q : Process)
    (hq : invoke sig s = Delivery.jumped q) :
    q.safe_handler_expected = false ∧ jumps q.trace = jumps s.trace + 1 := by
  unfold invoke at hq
  split at hq
  · cases hq
  · next r hr =>
    injection hq with hq
    rw [← hq]
    obtain ⟨h1, h2⟩ := run_handler_jumped _ _ _ _ hr
    refine ⟨h1, ?_⟩
    rw [h2, jumps_append, handler_entry_jumps]
    rfl

theorem fault_resumed (sig : Int) (s q : Process)
    (hq : fault sig s = Delivery.resumed q) : jumps q.trace = jumps s.trace := by
  unfold fault at hq
  split at hq
  · cases hq
  · split at hq
    · cases hq
    · cases hq
    · exact invoke_resumed sig s q hq

theorem fault_jumped (sig : Int) (s q : Process)
    (hq : fault sig s = Delivery.jumped q) :
    q.safe_handler_expected = false ∧ jumps q.trace = jumps s.trace + 1 := by
  unfold fault at hq
  split at hq
  · cases hq
  · split at hq
    · cases hq
    · cases hq
    · exact invoke_jumped sig s q hq

theorem load_jumped (a : Nat) :
    ∀ (fuel : Nat) (s q : Process), load fuel a s = Load.jumped q →
      q.safe_handler_expected = false ∧ jumps q.trace = jumps s.trace + 1 := by
  intro fuel
  induction fuel with
  | zero =>
    intro s q hq
    unfold load at hq
    split at hq
    · cases hq
    · next c _ =>
      cases hf : fault c.signum s with
      | resumed r => simp [hf] at hq
      | jumped r =>
        simp [hf] at hq
        rw [← hq]
        exact fault_jumped _ _ _ hf
      | killed sg r => simp [hf] at hq
      | pending r => simp [hf] at hq
  | succ n ih =>
    intro s q hq
    unfold load at hq
    split at hq
    · cases hq
    · next c _ =>
      cases hf : fault c.signum s with
      | resumed r =>
        simp [hf] at hq
        obtain ⟨h1, h2⟩ := ih r q hq
        exact ⟨h1, by rw [h2, fault_resumed _ _ _ hf]⟩
      | jumped r =>
        simp [hf] at hq
        rw [← hq]
        exact fault_jumped _ _ _ hf
      | killed sg r => simp [hf] at hq
      | pending r => simp [hf] at hq

theorem load_value (a : Nat) :
    ∀ (fuel : Nat) (s q : Process) (b : Nat), load fuel a s = Load.value b q →
      jumps q.trace = jumps s.trace := by
  intro fuel
  induction fuel with
  | zero =>
    intro s q b hq
    unfold load at hq
    split at hq
    · injection hq with _ hq; rw [hq]
    · next c _ =>
      cases hf : fault c.signum s <;> simp [hf] at hq
  | succ n ih =>
    intro s q b hq
    unfold load at hq
    split at hq
    · injection hq with _ hq; rw [hq]
    · next c _ =>
      cases hf : fault c.signum s with
      | resumed r =>
        simp [hf] at hq
        rw [ih r q b hq, fault_resumed _ _ _ hf]
      | jumped r => simp [hf] at hq
      | killed sg r => simp [hf] at hq
      | pending r => simp [hf] at hq

theorem armed_trace (p : Process) : (armed p).trace = p.trace := by
  simp [armed, sigsetjmp]

theorem safe_read_returned (fuel a : Nat) (p : Process) (v : Option Nat) (q : Process)
    (hq : safe_read_uint8_t fuel a p = Outcome.returned v q) :
    q.safe_handler_expected = false ∧ jumps q.trace ≤ jumps p.trace + 1 := by
  rw [safe_read_uint8_t_eq] at hq
  split at hq
  · next val p5 hl =>
    injection hq with _ hq
    rw [← hq]
    have := load_value a fuel _ _ _ hl
    simp [this, armed_trace]
  · next p5 hl =>
    injection hq with _ hq
    rw [← hq]
    obtain ⟨h1, h2⟩ := load_jumped a fuel _ _ hl
    simp [h1, h2, armed_trace]
  · cases hq
  · cases hq

/-- Claim C7.  For every probe call entered with the flag `false`: the flag
is still `false` when the recovery point is established and `true` at
the load; whenever the call returns, the flag is `false` and at most one
jump was made; on a readable address the call returns with the flag
cleared and no jump; on a faulting address (signal not blocked,
`sigaction` not refused) it returns with exactly one jump, and the flag is
already `false` in the state in which the recovery point is re-entered. -/
theorem safe_handler_expected_one_shot (fuel a : Nat) (p : Process)
    (hflag : p.safe_handler_expected = false) :
    (sigsetjmp 1 (sigaction_guard.construct SIGBUS bus_act
        (sigaction_guard.construct SIGSEGV segv_act p).2).2).safe_handler_expected = false
    ∧ (armed p).safe_handler_expected = true
    ∧ (∀ v q, safe_read_uint8_t fuel a p = Outcome.returned v q →
        q.safe_handler_expected = false ∧ jumps q.trace ≤ jumps p.trace + 1)
    ∧ (∀ b, p.mem a = Access.byte b →
        ∃ q, safe_read_uint8_t fuel a p = Outcome.returned (some b) q
          ∧ q.safe_handler_expected = false ∧ jumps q.trace = jumps p.trace)
    ∧ (∀ c : FaultClass, p.mem a = Access.fault c → c.signum ∉ p.blocked →
        p.sigaction_refused c.signum = false →
        ∃ s q, load fuel a (armed p) = Load.jumped s ∧ s.safe_handler_expected = false
          ∧ safe_read_uint8_t fuel a p = Outcome.returned none q
          ∧ q.safe_handler_expected = false ∧ jumps q.trace = jumps p.trace + 1) := by
  refine ⟨by simpa [sigsetjmp] using hflag, by simp [armed],
    fun v q hq => safe_read_returned fuel a p v q hq, ?_, ?_⟩
  · intro b hb
    exact ⟨_, safe_read_value fuel a b p hb, rfl, by simp [after_probe]⟩
  · intro c hc hb hr
    refine ⟨_, _, load_fault_armed fuel a c p hc hb hr, by simp [siglongjmp],
      safe_read_fault fuel a c p hc hb hr, rfl, ?_⟩
    simp [after_probe, jumps, List.count_cons]

/-- Witness for C7: the process `main` sets up, probing the null address. -/
theorem safe_handler_expected_one_shot_witness :
    demo.safe_handler_expected = false
    ∧ (∀ v q, safe_read_uint8_t 0 0 demo = Outcome.returned v q →
        q.safe_handler_expected = false ∧ jumps q.trace ≤ jumps demo.trace + 1) :=
  ⟨demo_expected, (safe_handler_expected_one_shot 0 0 demo demo_expected).2.2.1⟩

/-! ## The scoped installer -/

theorem guard_roundtrip (c : Int) (a : Sigaction) (p : Process)
    (h : sigaction_fails c true p = false) :
    (sigaction_guard.construct c a p).1.destroy (sigaction_guard.construct c a p).2 = p := by
  rw [construct_of_accepted c a p h]
  rw [destroy_of_accepted _ _ (by simpa [sigaction_fails] using h)]
  simp

theorem run_guards_unwind (c : Int) :
    ∀ (ops : List GuardOp) (st : List sigaction_guard) (p : Process),
      sigaction_fails c true p = false → well_nested st.length ops = true →
      run_guards c ops st p = some ([], unwind st p) := by
  intro ops
  induction ops with
  | nil =>
    intro st p _ hw
    cases st with
    | nil => rfl
    | cons g st => simp [well_nested] at hw
  | cons op ops ih =>
    intro st p hacc hw
    cases op with
    | construct a =>
      have hacc2 : sigaction_fails c true (sigaction_guard.construct c a p).2 = false := by
        rw [fails_of_refused_eq c true (construct_refused c a p)]; exact hacc
      have := ih ((sigaction_guard.construct c a p).1 :: st) (sigaction_guard.construct c a p).2
        hacc2 (by simpa [well_nested] using hw)
      simp only [run_guards, this, unwind, guard_roundtrip c a p hacc]
    | destroy =>
      cases st with
      | nil => simp [well_nested] at hw
      | cons g st =>
        have hacc2 : sigaction_fails c true (g.destroy p) = false := by
          rw [fails_of_refused_eq c true (destroy_refused g p)]; exact hacc
        have := ih st (g.destroy p) hacc2 (by simpa [well_nested] using hw)
        simp only [run_guards, this, unwind]

/-- Claim C6.  For every process, signal `c` that `sigaction` accepts there
and action `h`: constructing `sigaction_guard(c, h)` sets the entry for `c`
to `h`, captures the entry that was there and leaves every other entry
unchanged; destroying the guard in any later process `q` sets the entry for
`c` to exactly the captured value, whatever `q` holds there, and leaves
every other entry unchanged; and every strictly nested sequence of guard
constructions and destructions on `c` runs to the end and leaves the
process exactly as it was before the outermost guard. -/
theorem sigaction_guard_scoped (p : Process) (c : Int) (h : Sigaction)
    (hacc : sigaction_fails c true p = false) :
    (sigaction_guard.construct c h p).2.handlers c = h
    ∧ (sigaction_guard.construct c h p).1.old_act = p.handlers c
    ∧ (∀ d, d ≠ c → (sigaction_guard.construct c h p).2.handlers d = p.handlers d)
    ∧ (∀ q, sigaction_fails c true q = false →
        ((sigaction_guard.construct c h p).1.destroy q).handlers c = p.handlers c
        ∧ ∀ d, d ≠ c →
            ((sigaction_guard.construct c h p).1.destroy q).handlers d = q.handlers d)
    ∧ (∀ ops, well_nested 0 ops = true → run_guards c ops [] p = some ([], p)) := by
  rw [construct_of_accepted c h p hacc]
  refine ⟨by simp, rfl, fun d hd => by simp [Function.update, hd], ?_, ?_⟩
  · intro q hq
    rw [destroy_of_accepted _ _ (by simpa using hq)]
    exact ⟨by simp, fun d hd => by simp [Function.update, hd]⟩
  · intro ops hw
    exact run_guards_unwind c ops [] p hacc hw

/-- Witness for C6: a guard on `SIGSEGV` in the process `main` sets up, with
one guard nested inside another. -/
theorem sigaction_guard_scoped_witness :
    sigaction_fails SIGSEGV true demo = false
    ∧ (sigaction_guard.construct SIGSEGV segv_act demo).2.handlers SIGSEGV = segv_act
    ∧ (sigaction_guard.construct SIGSEGV segv_act demo).1.old_act = demo.handlers SIGSEGV
    ∧ run_guards SIGSEGV
        [GuardOp.construct segv_act, GuardOp.construct main_act, GuardOp.destroy,
          GuardOp.destroy] [] demo = some ([], demo) :=
  have hacc : sigaction_fails SIGSEGV true demo = false := by
    rw [fails_segv]; exact demo_refused _
  have h := sigaction_guard_scoped demo SIGSEGV segv_act hacc
  ⟨hacc, h.1, h.2.1, h.2.2.2.2 _ rfl⟩

/-! ## The unarmed handler -/

theorem demo_installed_handlers (c : FaultClass) :
    demo_installed.handlers c.signum = probe_act c := by
  cases c <;>
    simp [demo_installed, sigaction_guard.construct, sigaction, fails_segv, fails_bus,
      demo_refused, FaultClass.signum, probe_act, segv_ne_bus, segv_ne_bus.symm]

/-- Counterexample to C4 as stated.  In the process of `main`, while the
probe has `safe_handler` registered over the captured `custom_handler` and
the flag is `false`, a raised `SIGSEGV` ends with the trace holding the one
call of `safe_handler` and `custom_handler_flag` still `0`: the captured
handler is not invoked.  Had the probe's handler not been installed, the
same signal would have called `custom_handler` and set the flag to `1`. -/
theorem safe_handler_does_not_forward :
    demo_installed.safe_handler_expected = false
    ∧ (demo_installed.handlers SIGSEGV).sa_handler = Handler.safe_handler
    ∧ (sigaction_guard.construct SIGSEGV segv_act demo).1.old_act.sa_handler
        = Handler.custom_handler
    ∧ (∃ r, raise SIGSEGV demo_installed = Delivery.resumed r
        ∧ r.trace = [Event.handler_called Handler.safe_handler SIGSEGV]
        ∧ calls Handler.custom_handler SIGSEGV r.trace = 0
        ∧ r.custom_handler_flag = 0)
    ∧ (∃ r, raise SIGSEGV demo = Delivery.resumed r
        ∧ r.trace = [Event.handler_called Handler.custom_handler SIGSEGV]
        ∧ r.custom_handler_flag = 1) := by
  have hi : demo_installed.handlers SIGSEGV = segv_act := demo_installed_handlers FaultClass.segv
  have hd : demo.handlers SIGSEGV = main_act := demo_handlers FaultClass.segv
  have hbi : demo_installed.blocked = ∅ := by simp [demo_installed, demo_blocked]
  have hfi : demo_installed.safe_handler_expected = false := by
    simp [demo_installed, demo_expected]
  have hti : demo_installed.trace = [] := by simp [demo_installed, demo_trace]
  have hci : demo_installed.custom_handler_flag = 0 := by
    simp [demo_installed, demo, main_setup, boot]
  refine ⟨hfi, by rw [hi]; rfl, ?_, ?_, ?_⟩
  · rw [construct_of_accepted _ _ _ (by rw [fails_segv]; exact demo_refused _)]
    simp only [hd]; rfl
  · simp [raise, hbi, hi, invoke, run_handler, safe_handler, handler_entry, hfi, hti, hci, calls]
  · simp [raise, demo_blocked, hd, main_act, invoke, run_handler, custom_handler, handler_entry,
      demo_trace]

/-- Claim C4, amended.  When `safe_handler` is invoked while the flag is
`false` it returns normally and leaves the whole process state as it found
it: the flag stays `false` and no jump is made.  It does not invoke any
other handler: a signal raised while `safe_handler` is registered for it is
delivered to `safe_handler` alone, and `custom_handler_flag` keeps its
value. -/
theorem safe_handler_unarmed (sig : Int) (p : Process)
    (hflag : p.safe_handler_expected = false) :
    safe_handler sig p = HandlerExit.returned p
    ∧ ((p.handlers sig).sa_handler = Handler.safe_handler → sig ∉ p.blocked →
        ∃ r, raise sig p = Delivery.resumed r
          ∧ r.trace = p.trace ++ [Event.handler_called Handler.safe_handler sig]
          ∧ r.safe_handler_expected = false
          ∧ r.custom_handler_flag = p.custom_handler_flag
          ∧ r.blocked = p.blocked ∧ r.mem = p.mem) := by
  refine ⟨by simp [safe_handler, hflag], ?_⟩
  intro hh hb
  simp [raise, hb, hh, invoke, run_handler, safe_handler, handler_entry, hflag]

/-- Witness for C4 (amended): the process of `main` inside a probe, before
the flag is armed. -/
theorem safe_handler_unarmed_witness :
    demo_installed.safe_handler_expected = false
    ∧ safe_handler SIGSEGV demo_installed = HandlerExit.returned demo_installed :=
  have h : demo_installed.safe_handler_expected = false := by
    simp [demo_installed, demo_expected]
  ⟨h, (safe_handler_unarmed SIGSEGV demo_installed h).1⟩

/-! ## The masks of the probe's actions -/

/-- Counterexample to C5 as stated.  The action the probe registers for
`SIGSEGV` has `SIGBUS` in its mask and the one for `SIGBUS` has `SIGSEGV`,
as built and as found in the table at the load. -/
theorem segv_action_blocks_bus :
    SIGBUS ∈ segv_act.sa_mask ∧ SIGSEGV ∈ bus_act.sa_mask
    ∧ SIGBUS ∈ ((armed demo).handlers SIGSEGV).sa_mask
    ∧ SIGSEGV ∈ ((armed demo).handlers SIGBUS).sa_mask := by
  have h1 := armed_handlers demo FaultClass.segv (demo_refused _)
  have h2 := armed_handlers demo FaultClass.bus (demo_refused _)
  simp only [FaultClass.signum, probe_act] at h1 h2
  rw [h1, h2, segv_act_mask, bus_act_mask]
  simp

/-- Claim C5, amended.  In the configuration `safe_read_uint8_t` installs,
the mask of the `SIGSEGV` action is exactly `SIGBUS` and the mask of the
`SIGBUS` action is exactly `SIGSEGV`: while the probe's handler runs for
either class, both classes are blocked. -/
theorem probe_actions_mask (p : Process)
    (hr : p.sigaction_refused SIGSEGV = false ∧ p.sigaction_refused SIGBUS = false) :
    ((armed p).handlers SIGSEGV).sa_mask = {SIGBUS}
    ∧ ((armed p).handlers SIGBUS).sa_mask = {SIGSEGV}
    ∧ ∀ c : FaultClass,
        SIGSEGV ∈ (handler_entry c.signum (armed p)).blocked
        ∧ SIGBUS ∈ (handler_entry c.signum (armed p)).blocked := by
  have h1 := armed_handlers p FaultClass.segv hr.1
  have h2 := armed_handlers p FaultClass.bus hr.2
  simp only [FaultClass.signum, probe_act] at h1 h2
  refine ⟨by rw [h1, segv_act_mask], by rw [h2, bus_act_mask], ?_⟩
  intro c
  have hc : p.sigaction_refused c.signum = false := by cases c; exact hr.1; exact hr.2
  rw [handler_entry_armed_blocked p c hc]
  simp

/-- Witness for C5 (amended): the process `main` sets up. -/
theorem probe_actions_mask_witness :
    (demo.sigaction_refused SIGSEGV = false ∧ demo.sigaction_refused SIGBUS = false)
    ∧ ((armed demo).handlers SIGSEGV).sa_mask = {SIGBUS}
    ∧ ((armed demo).handlers SIGBUS).sa_mask = {SIGSEGV} :=
  have hr : demo.sigaction_refused SIGSEGV = false ∧ demo.sigaction_refused SIGBUS = false :=
    ⟨demo_refused _, demo_refused _⟩
  ⟨hr, (probe_actions_mask demo hr).1, (probe_actions_mask demo hr).2.1⟩

/-! ## Failing `sigaction` calls -/

/-- Counterexample to C8 as stated.  In an environment that refuses every
`sigaction` call, both installing calls of the probe and a restoring call
report `-1`, nothing is installed, and `safe_read_uint8_t` still arms the
flag, performs the read and returns the byte. -/
theorem sigaction_failure_is_not_fatal :
    (sigaction SIGSEGV (some segv_act) (some Sigaction.zero) demo_refusing).ret = -1
    ∧ (sigaction SIGBUS (some bus_act) (some Sigaction.zero)
        (sigaction_guard.construct SIGSEGV segv_act demo_refusing).2).ret = -1
    ∧ (sigaction SIGSEGV
        (some (sigaction_guard.construct SIGSEGV segv_act demo_refusing).1.old_act) none
        demo_refusing).ret = -1
    ∧ (armed demo_refusing).handlers = demo_refusing.handlers
    ∧ (armed demo_refusing).safe_handler_expected = true
    ∧ load 0 1 (armed demo_refusing) = Load.value 30 (armed demo_refusing)
    ∧ safe_read_uint8_t 0 1 demo_refusing
        = Outcome.returned (some 30) (after_probe demo_refusing []) := by
  have hm : demo_refusing.mem 1 = Access.byte 30 := by
    simp [demo_refusing, demo_mem_eq, demo_mem]
  refine ⟨?_, ?_, ?_, ?_, by simp [armed], ?_, safe_read_value 0 1 30 _ hm⟩
  · simp [sigaction, sigaction_fails, demo_refusing]
  · simp [sigaction, sigaction_fails, demo_refusing]
  · simp [sigaction, sigaction_fails, demo_refusing]
  · simp [armed, sigsetjmp, sigaction_guard.construct, sigaction, sigaction_fails, demo_refusing]
  · exact load_readable 0 1 30 _ (by simpa [armed, sigsetjmp] using hm)

/-- Claim C8, amended.  The value `sigaction` returns is never examined.
When the call for a fault class is refused, it reports `-1`, the guard's
constructor completes with `old_act` left value-initialised and the
process unchanged, a destructor for that class completes likewise, the
entry for that class is the one the caller had at the load, and `safe_read_uint8_t` goes on to arm the flag and perform the
read; on a readable address it returns the byte. -/
theorem sigaction_result_discarded (fuel a b : Nat) (p : Process) (c : FaultClass)
    (hrefuse : p.sigaction_refused c.signum = true) (h : p.mem a = Access.byte b) :
    (sigaction c.signum (some (probe_act c)) (some Sigaction.zero) p).ret = -1
    ∧ sigaction_guard.construct c.signum (probe_act c) p
        = ({ signum := c.signum, act := probe_act c, old_act := Sigaction.zero }, p)
    ∧ (∀ g : sigaction_guard, g.signum = c.signum →
        (sigaction g.signum (some g.old_act) none p).ret = -1 ∧ g.destroy p = p)
    ∧ (armed p).handlers c.signum = p.handlers c.signum
    ∧ (armed p).safe_handler_expected = true
    ∧ load fuel a (armed p) = Load.value b (armed p)
    ∧ safe_read_uint8_t fuel a p = Outcome.returned (some b) (after_probe p []) := by
  have hf : sigaction_fails c.signum true p = true := by
    rw [fails_fault_class]; exact hrefuse
  refine ⟨by simp [sigaction, hf], construct_of_failed _ _ _ hf, ?_, ?_, by simp [armed],
    load_readable fuel a b _ (by simpa [armed, sigsetjmp] using h), safe_read_value fuel a b p h⟩
  · intro g hg
    have hg2 : sigaction_fails g.signum true p = true := by rw [hg]; exact hf
    exact ⟨by simp [sigaction, hg2], destroy_of_failed g p hg2⟩
  cases c <;> cases h1 : p.sigaction_refused SIGSEGV <;> cases h2 : p.sigaction_refused SIGBUS <;>
    simp [FaultClass.signum, h1, h2] at hrefuse <;>
    simp [armed, sigsetjmp, sigaction_guard.construct, sigaction, fails_segv, fails_bus, h1, h2,
      FaultClass.signum, segv_ne_bus, segv_ne_bus.symm]

/-- Witness for C8 (amended): the refusing environment, probing the byte
`30`. -/
theorem sigaction_result_discarded_witness :
    demo_refusing.sigaction_refused FaultClass.segv.signum = true
    ∧ demo_refusing.mem 1 = Access.byte 30
    ∧ safe_read_uint8_t 0 1 demo_refusing
        = Outcome.returned (some 30) (after_probe demo_refusing []) :=
  have hm : demo_refusing.mem 1 = Access.byte 30 := by
    simp [demo_refusing, demo_mem_eq, demo_mem]
  ⟨rfl, hm, (sigaction_result_discarded 0 1 30 demo_refusing FaultClass.segv rfl hm).2.2.2.2.2.2⟩

end SafeRead

namespace MemoryPool

/-! ## The pool allocator -/

theorem instance_pool_eq :
    instance_pool = { first_free := 0x7f0100000000, bottom := 0x7f0000000000 } := by
  decide

/-- Claim C10, evaluated where it fails.  On the shared pool (range
`[0x7f0000000000, 0x7f0100000000)`), `allocate(2^59)` for the 16-byte `Edge`
asks for `2^63` bytes: the subtraction wraps, the result is not below
`bottom`, so nothing is thrown and the returned block starts at
`0x80007f0100000000`, above the pool.  `allocate(2^60)` asks for `2^64` bytes,
which is `0` in `size_t`: two such calls both succeed and return the same
address. -/
theorem allocate_wraps_past_pool :
    allocate sizeof_Edge (2 ^ 59) instance_pool
      = (some 0x80007f0100000000,
         { first_free := 0x80007f0100000000, bottom := 0x7f0000000000 })
    ∧ ¬ (0x80007f0100000000 < instance_pool.first_free)
    ∧ allocate_all sizeof_Edge [2 ^ 60, 2 ^ 60] instance_pool
      = ([(some 0x7f0100000000, 2 ^ 64), (some 0x7f0100000000, 2 ^ 64)], instance_pool) := by
  rw [instance_pool_eq]
  decide

theorem allocate_no_wrap (sizeof_T n : Nat) (s : pool_allocator_base)
    (hff : s.first_free < WORD) (hsz : sizeof_T * n ≤ s.first_free) :
    allocate sizeof_T n s
      = (if s.first_free - sizeof_T * n < s.bottom then none
          else some (s.first_free - sizeof_T * n),
         { s with first_free := s.first_free - sizeof_T * n }) := by
  have h1 : (sizeof_T * n) % WORD = sizeof_T * n := Nat.mod_eq_of_lt (by omega)
  have h2 : (s.first_free + WORD - sizeof_T * n) % WORD = s.first_free - sizeof_T * n := by
    have : s.first_free + WORD - sizeof_T * n = (s.first_free - sizeof_T * n) + WORD := by omega
    rw [this, Nat.add_mod_right]
    exact Nat.mod_eq_of_lt (by omega)
  unfold allocate
  simp only [h1, h2]
  split <;> rfl

/-- What `allocate` does on every input: `first_free` is lowered by
`sizeof(T) * n` in 64-bit arithmetic, also when the call throws; the new
value is returned unless it is below `bottom`; `bottom` never changes, and
`deallocate` changes nothing. -/
theorem allocate_spec (sizeof_T n ptr m : Nat) (s : pool_allocator_base) :
    (allocate sizeof_T n s).2.first_free
      = (s.first_free + WORD - (sizeof_T * n) % WORD) % WORD
    ∧ (allocate sizeof_T n s).2.bottom = s.bottom
    ∧ ((allocate sizeof_T n s).1 = none ↔ (allocate sizeof_T n s).2.first_free < s.bottom)
    ∧ (∀ res, (allocate sizeof_T n s).1 = some res →
        res = (allocate sizeof_T n s).2.first_free)
    ∧ deallocate ptr m s = s := by
  unfold allocate deallocate
  simp only []
  split <;> simp_all

/-- Without wrap-around (the pointer fits 64 bits and the bytes asked for in
the whole sequence do not exceed `first_free`), a sequence of `allocate`
calls lowers `first_free` by the total, every block of a successful call
lies inside `[bottom, initial first_free)`, and a later block ends where an
earlier one starts or below. -/
theorem allocate_all_no_wrap (sizeof_T : Nat) :
    ∀ (ns : List Nat) (s : pool_allocator_base),
      s.first_free < WORD → sizeof_T * ns.sum ≤ s.first_free →
      (allocate_all sizeof_T ns s).2.first_free = s.first_free - sizeof_T * ns.sum
      ∧ (allocate_all sizeof_T ns s).2.bottom = s.bottom
      ∧ (∀ ptr sz, (some ptr, sz) ∈ (allocate_all sizeof_T ns s).1 →
          s.bottom ≤ ptr ∧ ptr + sz ≤ s.first_free)
      ∧ (allocate_all sizeof_T ns s).1.Pairwise
          (fun x y => ∀ px py, x.1 = some px → y.1 = some py → py + y.2 ≤ px) := by
  intro ns
  induction ns with
  | nil => intro s _ _; simp [allocate_all]
  | cons n ns ih =>
    intro s hff hsum
    rw [List.sum_cons, Nat.mul_add] at hsum
    have hn : sizeof_T * n ≤ s.first_free := by omega
    have ha := allocate_no_wrap sizeof_T n s hff hn
    obtain ⟨i1, i2, i3, i4⟩ := ih (allocate sizeof_T n s).2
      (by rw [ha]; simp only []; omega) (by rw [ha]; simp only []; omega)
    have hf2 : (allocate sizeof_T n s).2.first_free = s.first_free - sizeof_T * n := by rw [ha]
    have hb2 : (allocate sizeof_T n s).2.bottom = s.bottom := by rw [ha]
    rw [hf2] at i1 i3
    rw [hb2] at i2 i3
    simp only [allocate_all, List.sum_cons, Nat.mul_add]
    refine ⟨by rw [i1]; omega, i2, ?_, ?_⟩
    · intro ptr sz hmem
      rcases List.mem_cons.1 hmem with h | h
      · injection h with h1 h2
        rw [ha] at h1
        simp only [] at h1
        split at h1
        · cases h1
        · injection h1 with h1
          subst h1 h2
          omega
      · have := i3 ptr sz h
        omega
    · refine List.pairwise_cons.2 ⟨?_, i4⟩
      intro y hy px py hpx hpy
      have hy2 : (some py, y.2) ∈ (allocate_all sizeof_T ns (allocate sizeof_T n s).2).1 := by
        rw [← hpy]; exact hy
      have h3 := i3 py y.2 hy2
      rw [ha] at hpx
      simp only [] at hpx
      split at hpx
      · cases hpx
      · injection hpx with hpx
        omega

end MemoryPool

end VirtualMachines
